import Mathlib

/-!
Verification of the regulation-tracker core (src/app.py).

The embedding is shallow: each relevant piece of the Python source is
translated into an executable Lean definition.

  * Calendar dates (`datetime.date`) are modelled by their proleptic
    Gregorian ordinal, a natural number; `date.max` (9999-12-31) has
    ordinal 3652059.  Timestamps (`datetime.datetime`) are likewise
    modelled by a natural number and the current time is passed as an
    explicit parameter.
  * Nullable database columns become `Option` fields; SQL `NULL` is
    `none`.  `title` columns are declared `nullable=False` and are
    modelled as plain strings.
  * Python `str.lower()` is modelled by mapping `Char.toLower` over the
    character list of the string, and `hay.find(needle) >= 0` by the
    infix (contiguous-substring) relation on character lists.
-/

namespace RegTracker

/-- Ordinal of `datetime.date.max` (9999-12-31), the sentinel used by the
action sort key in src/app.py line 211 (`x.due_date or date.max`). -/
def dateMax : Nat := 3652059

/-- Row of the `regulations` table (src/app.py lines 21-34).  `title` is
`nullable=False`; the other text columns are nullable. -/
structure Regulation where
  id : Nat
  title : String
  source : Option String
  jurisdiction : Option String
  category : Option String
  effective_date : Option Nat
  received_at : Option Nat
  summary : Option String
  status : Option String
  deriving DecidableEq, Repr

/-- Row of the `actions` table (src/app.py lines 46-57). -/
structure Action where
  id : Nat
  regulation_id : Nat
  title : String
  description : Option String
  status : Option String
  assignee : Option String
  due_date : Option Nat
  completed_at : Option Nat
  deriving DecidableEq, Repr

/-- Python `str.lower()` on the character list of a string. -/
def lowerChars (l : List Char) : List Char := l.map Char.toLower

/-- Python `hay.find(needle) >= 0`: `needle` occurs contiguously in `hay`. -/
def containsSub (hay needle : List Char) : Bool :=
  decide (List.IsInfix needle hay)

/-- The sidebar filter inputs (src/app.py lines 123-130): a free-text
query and three facet select boxes whose wildcard option is `"All"`. -/
structure FilterSpec where
  q : String
  source : String
  status : String
  category : String
  deriving DecidableEq, Repr

/-- The free-text test of src/app.py line 142: the lowered query occurs in
the lowered title, summary or jurisdiction, absent fields read as `""`. -/
def textMatch (ql : List Char) (r : Regulation) : Bool :=
  containsSub (lowerChars r.title.data) ql
  || containsSub (lowerChars (r.summary.getD "").data) ql
  || containsSub (lowerChars (r.jurisdiction.getD "").data) ql

/-- One iteration of the client-side filter loop of src/app.py lines
140-150: `true` exactly when none of the four `continue` branches fires. -/
def keepReg (fs : FilterSpec) (r : Regulation) : Bool :=
  let ql := lowerChars fs.q.data
  if ql ≠ [] ∧ textMatch ql r = false then false
  else if fs.source ≠ "All" ∧ r.source ≠ some fs.source then false
  else if fs.status ≠ "All" ∧ r.status ≠ some fs.status then false
  else if fs.category ≠ "All" ∧ r.category ≠ some fs.category then false
  else true

/-- The client-side filter of src/app.py lines 138-150: the loaded
regulations are traversed in load order and the survivors appended. -/
def listRegulations (fs : FilterSpec) (regs : List Regulation) : List Regulation :=
  regs.filter (keepReg fs)

/-- Spec-side free-text condition, written from the spec's words (§4.3
step 1): the case-folded query is a substring of the case-folded title,
or summary, or jurisdiction, absent fields treated as empty strings. -/
def textHitSpec (q : String) (r : Regulation) : Prop :=
  List.IsInfix (lowerChars q.data) (lowerChars r.title.data) ∨
  List.IsInfix (lowerChars q.data) (lowerChars (r.summary.getD "").data) ∨
  List.IsInfix (lowerChars q.data) (lowerChars (r.jurisdiction.getD "").data)

/-- Spec-side retention predicate, written from the spec's words (§4.3):
conjunction of the free-text condition (empty query no restriction) and
the three exact-match facet conditions with wildcard `"All"`. -/
def retainedSpec (fs : FilterSpec) (r : Regulation) : Prop :=
  (fs.q = "" ∨ textHitSpec fs.q r) ∧
  (fs.source = "All" ∨ r.source = some fs.source) ∧
  (fs.status = "All" ∨ r.status = some fs.status) ∧
  (fs.category = "All" ∨ r.category = some fs.category)

instance (q : String) (r : Regulation) : Decidable (textHitSpec q r) := by
  unfold textHitSpec; infer_instance

instance (fs : FilterSpec) (r : Regulation) : Decidable (retainedSpec fs r) := by
  unfold retainedSpec; infer_instance

/-- Values that the per-action edit form collects (src/app.py lines
215-222): Streamlit text inputs always yield strings, `st.date_input`
always yields a date (its default is `a.due_date or date.today()`), and
the "Mark done" checkbox yields a boolean. -/
structure EditFields where
  title : String
  description : String
  status : String
  assignee : String
  due_date : Nat
  done : Bool
  deriving DecidableEq, Repr

/-- The action save handler (src/app.py lines 225-233): every field is
replaced; status becomes `"Done"` when the done checkbox is set,
otherwise the selected status; `completed_at` is `utcnow()` when the
resulting status is `"Done"`, else `None`.  The current instant is the
explicit parameter `now`. -/
def applyActionEdit (now : Nat) (a : Action) (f : EditFields) : Action :=
  let newStatus : String := if f.done then "Done" else f.status
  { a with
    title := f.title
    description := some f.description
    status := some newStatus
    assignee := some f.assignee
    due_date := some f.due_date
    completed_at := if newStatus = "Done" then some now else none }

/-- Values that the "Add Action" form collects (src/app.py lines
243-246); no status and no completion time are collected. -/
structure AddFields where
  title : String
  description : String
  assignee : String
  due_date : Nat
  deriving DecidableEq, Repr

/-- The add-action handler (src/app.py lines 248-251) together with the
column defaults of lines 52-55: the new row carries the form fields, the
`status` column default `"Planned"`, and a `NULL` `completed_at`. -/
def addAction (regId : Nat) (newId : Nat) (f : AddFields) : Action :=
  { id := newId
    regulation_id := regId
    title := f.title
    description := some f.description
    status := some "Planned"
    assignee := some f.assignee
    due_date := some f.due_date
    completed_at := none }

/-- Widget default of the edit form's due-date input (src/app.py line
221): `a.due_date or date.today()`. -/
def editDueDefault (a : Action) (today : Nat) : Nat := a.due_date.getD today

/-- Error taxonomy of the spec (§7). -/
inductive CoreError
  | invalidStatus
  | invalidTitle
  | notFound
  deriving DecidableEq, Repr

/-- The three legal regulation statuses, the exact option list of the
status select box (src/app.py line 192). -/
def regulationStatuses : List String := ["Open", "In Progress", "Closed"]

/-- Modelled from the spec: the source (src/app.py lines 192-196) takes
the new status from a selection widget whose option list is exactly
`regulationStatuses` and then replaces the field unconditionally; the
rejection of any value outside the option list happens inside the widget,
which is not code of this repository, and is modelled here from the
spec's words (§4.2) as failing with `InvalidStatus`. -/
def setRegulationStatus (r : Regulation) (newStatus : String) :
    Except CoreError Regulation :=
  if newStatus ∈ regulationStatuses then .ok { r with status := some newStatus }
  else .error .invalidStatus

/-- Persisted state after a status-change command (§7: a rejected command
leaves the prior persisted state untouched). -/
def statusAfter (r : Regulation) (newStatus : String) : Regulation :=
  match setRegulationStatus r newStatus with
  | .ok r' => r'
  | .error _ => r

/-- Sort key of src/app.py line 211: `x.due_date or date.max`. -/
def actionKey (a : Action) : Nat := a.due_date.getD dateMax

/-- Insert an action into an already-processed suffix, passing over
strictly smaller keys and stopping before any equal-or-larger key; folded
over the list this is the stable sort by `actionKey` that Python's
`sorted` (src/app.py line 211) performs. -/
def insertSorted (a : Action) : List Action → List Action
  | [] => [a]
  | b :: t => if actionKey b < actionKey a then b :: insertSorted a t else a :: b :: t

/-- `sorted(reg.actions, key=lambda x: (x.due_date or date.max))`
(src/app.py line 211), embedded as the stable sort by `actionKey`. -/
def sortActions (l : List Action) : List Action := l.foldr insertSorted []

/-- Selection label of src/app.py line 170: `f"#{r.id} — {r.title[:80]}"`. -/
def selectionLabel (r : Regulation) : String :=
  "#" ++ Nat.repr r.id ++ " — " ++ String.mk (r.title.data.take 80)

/-- The label list built over the filtered regulations (src/app.py line 170). -/
def selectionLabels (regs : List Regulation) : List String :=
  regs.map selectionLabel

/-- Sample regulation, after seed row `r2` of src/app.py lines 86-96
(dates as ordinals: 2025-06-30 is 739432, 2025-07-20T09:00 abbreviated
to ordinal 739452). -/
def sampleReg : Regulation :=
  { id := 2
    title := "IMO MARPOL Annex VI NOx Tier III Guidance"
    source := some "IMO"
    jurisdiction := some "Global"
    category := some "Technical"
    effective_date := some 739432
    received_at := some 739452
    summary := some "Clarifies EIAPP documentation and testing windows for retrofits."
    status := some "Open" }

/-- Sample action, after seed action of src/app.py line 98
(2025-09-10 has ordinal 739504). -/
def sampleAct : Action :=
  { id := 3
    regulation_id := 2
    title := "Assess retrofit feasibility"
    description := some "Check Tier III compliance options for 2012-2016 builds"
    status := some "Planned"
    assignee := some "J. Kim"
    due_date := some 739504
    completed_at := none }

/-- An action with no due date. -/
def sampleActNoDue : Action :=
  { id := 4
    regulation_id := 2
    title := "Collect EIAPP certificates"
    description := none
    status := some "Planned"
    assignee := none
    due_date := none
    completed_at := none }

/-- An action whose due date is literally `date.max` (9999-12-31), a
representable calendar date. -/
def sampleActMaxDue : Action :=
  { id := 5
    regulation_id := 2
    title := "Sunset review"
    description := none
    status := some "Planned"
    assignee := none
    due_date := some dateMax
    completed_at := none }

lemma containsSub_eq_true_iff (hay needle : List Char) :
    containsSub hay needle = true ↔ List.IsInfix needle hay := by
  simp [containsSub]

lemma textMatch_eq_true_iff (q : String) (r : Regulation) :
    textMatch (lowerChars q.data) r = true ↔ textHitSpec q r := by
  simp only [textMatch, textHitSpec, Bool.or_eq_true, containsSub_eq_true_iff]
  tauto

lemma lowerChars_eq_nil_iff (s : String) : lowerChars s.data = [] ↔ s = "" := by
  cases s with
  | mk data =>
    constructor
    · intro h
      have hd : data = [] := by simpa [lowerChars] using h
      rw [hd]
    · intro h
      have hd : data = [] := congrArg String.data h
      simp [lowerChars, hd]

lemma keepReg_eq_true_iff_raw (fs : FilterSpec) (r : Regulation) :
    keepReg fs r = true ↔
      ¬(lowerChars fs.q.data ≠ [] ∧ textMatch (lowerChars fs.q.data) r = false) ∧
      ¬(fs.source ≠ "All" ∧ r.source ≠ some fs.source) ∧
      ¬(fs.status ≠ "All" ∧ r.status ≠ some fs.status) ∧
      ¬(fs.category ≠ "All" ∧ r.category ≠ some fs.category) := by
  unfold keepReg
  dsimp only
  split_ifs with h1 h2 h3 h4 <;> simp_all

lemma keepReg_eq_true_iff (fs : FilterSpec) (r : Regulation) :
    keepReg fs r = true ↔ retainedSpec fs r := by
  rw [keepReg_eq_true_iff_raw]
  have htext := textMatch_eq_true_iff fs.q r
  have hq := lowerChars_eq_nil_iff fs.q
  unfold retainedSpec
  constructor
  · rintro ⟨hA, hB, hC, hD⟩
    refine ⟨?_, by tauto, by tauto, by tauto⟩
    by_cases hnil : lowerChars fs.q.data = []
    · exact Or.inl (hq.mp hnil)
    · have hm : textMatch (lowerChars fs.q.data) r = true := by
        by_contra hfalse
        exact hA ⟨hnil, by simpa using hfalse⟩
      exact Or.inr (htext.mp hm)
  · rintro ⟨hA, hB, hC, hD⟩
    refine ⟨?_, by tauto, by tauto, by tauto⟩
    rintro ⟨hnil, hfalse⟩
    rcases hA with hA | hA
    · exact hnil (hq.mpr hA)
    · rw [htext.mpr hA] at hfalse
      simp at hfalse

lemma mem_insertSorted {x a : Action} {s : List Action} :
    x ∈ insertSorted a s ↔ x = a ∨ x ∈ s := by
  induction s with
  | nil => simp [insertSorted]
  | cons b t ih =>
    unfold insertSorted
    split_ifs with hlt
    · simp only [List.mem_cons, ih]
      tauto
    · simp only [List.mem_cons]

lemma insertSorted_perm (a : Action) (s : List Action) :
    (insertSorted a s).Perm (a :: s) := by
  induction s with
  | nil => simp [insertSorted]
  | cons b t ih =>
    unfold insertSorted
    split_ifs with hlt
    · exact List.Perm.trans (List.Perm.cons b ih) (List.Perm.swap a b t)
    · exact List.Perm.refl _

lemma pairwise_insertSorted {a : Action} {s : List Action}
    (h : List.Pairwise (fun x y => actionKey x ≤ actionKey y) s) :
    List.Pairwise (fun x y => actionKey x ≤ actionKey y) (insertSorted a s) := by
  induction s with
  | nil => simp [insertSorted]
  | cons b t ih =>
    rcases List.pairwise_cons.mp h with ⟨hb, ht⟩
    unfold insertSorted
    split_ifs with hlt
    · refine List.pairwise_cons.mpr ⟨?_, ih ht⟩
      intro y hy
      rcases mem_insertSorted.mp hy with rfl | hyt
      · exact Nat.le_of_lt hlt
      · exact hb y hyt
    · refine List.pairwise_cons.mpr ⟨?_, h⟩
      intro y hy
      rcases List.mem_cons.mp hy with rfl | hyt
      · exact Nat.le_of_not_lt hlt
      · exact Nat.le_trans (Nat.le_of_not_lt hlt) (hb y hyt)

lemma sortActions_perm (l : List Action) : (sortActions l).Perm l := by
  induction l with
  | nil => simp [sortActions]
  | cons x xs ih =>
    have hstep : sortActions (x :: xs) = insertSorted x (sortActions xs) := rfl
    rw [hstep]
    exact List.Perm.trans (insertSorted_perm x (sortActions xs)) (List.Perm.cons x ih)

lemma sortActions_pairwise (l : List Action) :
    List.Pairwise (fun x y => actionKey x ≤ actionKey y) (sortActions l) := by
  induction l with
  | nil => simp [sortActions]
  | cons x xs ih => exact pairwise_insertSorted ih

lemma filter_key_insertSorted (x : Action) (s : List Action) (n : Nat) :
    (insertSorted x s).filter (fun a => actionKey a == n) =
      if actionKey x == n then x :: s.filter (fun a => actionKey a == n)
      else s.filter (fun a => actionKey a == n) := by
  induction s with
  | nil =>
    by_cases hx : (actionKey x == n) = true
    · simp [insertSorted, hx]
    · simp only [Bool.not_eq_true] at hx
      simp [insertSorted, hx]
  | cons b t ih =>
    by_cases hx : (actionKey x == n) = true
    · rw [if_pos hx]
      have hn : actionKey x = n := by simpa using hx
      unfold insertSorted
      split_ifs with hlt
      · have hbn : (actionKey b == n) = false := by
          simp only [beq_eq_false_iff_ne, ne_eq]
          omega
        simp [List.filter_cons, hbn, ih, hx]
      · simp [List.filter_cons, hx]
    · rw [if_neg hx]
      simp only [Bool.not_eq_true] at hx
      unfold insertSorted
      split_ifs with hlt
      · simp [List.filter_cons, ih, hx]
      · simp [List.filter_cons, hx]

lemma sortActions_filter_key (l : List Action) (n : Nat) :
    (sortActions l).filter (fun a => actionKey a == n) =
      l.filter (fun a => actionKey a == n) := by
  induction l with
  | nil => rfl
  | cons x xs ih =>
    have hstep : sortActions (x :: xs) = insertSorted x (sortActions xs) := rfl
    rw [hstep, filter_key_insertSorted, ih]
    simp only [List.filter_cons]

lemma insertSorted_of_forall_le {x : Action} {s : List Action}
    (h : ∀ b ∈ s, actionKey x ≤ actionKey b) : insertSorted x s = x :: s := by
  cases s with
  | nil => rfl
  | cons b t =>
    have hb : ¬ actionKey b < actionKey x :=
      Nat.not_lt.mpr (h b (List.mem_cons_self b t))
    unfold insertSorted
    rw [if_neg hb]

lemma sortActions_eq_self_of_pairwise {l : List Action}
    (h : List.Pairwise (fun x y => actionKey x ≤ actionKey y) l) :
    sortActions l = l := by
  induction l with
  | nil => rfl
  | cons x xs ih =>
    rcases List.pairwise_cons.mp h with ⟨hx, hxs⟩
    have hstep : sortActions (x :: xs) = insertSorted x (sortActions xs) := rfl
    rw [hstep, ih hxs]
    exact insertSorted_of_forall_le hx

lemma sortActions_idem (l : List Action) :
    sortActions (sortActions l) = sortActions l :=
  sortActions_eq_self_of_pairwise (sortActions_pairwise l)

/-- Claim C1: `listRegulations` returns exactly the ordered subsequence of
the loaded regulations that satisfy all active predicates, in load order
with no re-sorting; each facet predicate, when set and not the wildcard,
requires case-sensitive exact equality with the regulation's field; and
with every field at wildcard/empty, every regulation is returned in load
order. -/
theorem claim_C1_filter_exact (fs : FilterSpec) (regs : List Regulation) :
    listRegulations fs regs = regs.filter (fun r => decide (retainedSpec fs r)) ∧
    (listRegulations fs regs).Sublist regs ∧
    (fs.q = "" ∧ fs.source = "All" ∧ fs.status = "All" ∧ fs.category = "All" →
      listRegulations fs regs = regs) := by
  refine ⟨?_, List.filter_sublist regs, ?_⟩
  · unfold listRegulations
    apply List.filter_congr
    intro r _
    have h := keepReg_eq_true_iff fs r
    by_cases hr : retainedSpec fs r
    · simp [h.mpr hr, hr]
    · have hk : keepReg fs r = false := by
        rcases Bool.eq_false_or_eq_true (keepReg fs r) with hf | hf
        · exact absurd (h.mp hf) hr
        · exact hf
      simp [hk, hr]
  · rintro ⟨hq, hs, hst, hc⟩
    unfold listRegulations
    apply List.filter_eq_self.mpr
    intro r _
    exact (keepReg_eq_true_iff fs r).mpr ⟨Or.inl hq, Or.inl hs, Or.inl hst, Or.inl hc⟩

theorem claim_C1_witness :
    listRegulations { q := "", source := "All", status := "All", category := "All" }
        [sampleReg] = [sampleReg] :=
  (claim_C1_filter_exact _ [sampleReg]).2.2 ⟨rfl, rfl, rfl, rfl⟩

/-- Claim C2: under a free-text query (facets at wildcard) a regulation is
retained iff the case-folded query is a substring of the case-folded
title, summary or jurisdiction, absent fields read as empty strings, and
the empty query imposes no restriction. -/
theorem claim_C2_free_text (q : String) (regs : List Regulation) (r : Regulation) :
    r ∈ listRegulations { q := q, source := "All", status := "All", category := "All" } regs ↔
      r ∈ regs ∧ (q = "" ∨ textHitSpec q r) := by
  unfold listRegulations
  rw [List.mem_filter]
  constructor
  · rintro ⟨hm, hk⟩
    exact ⟨hm, ((keepReg_eq_true_iff _ r).mp hk).1⟩
  · rintro ⟨hm, hq⟩
    exact ⟨hm, (keepReg_eq_true_iff _ r).mpr ⟨hq, Or.inl rfl, Or.inl rfl, Or.inl rfl⟩⟩

/-- Claim C3: after an action edit, a resulting status of Done sets
`completed_at` to the current time and any other resulting status clears
it; hence after every operation (edit or add) `completed_at` is non-null
iff the action's status is Done. -/
theorem claim_C3_completed_at (now : Nat) (a : Action) (f : EditFields)
    (regId newId : Nat) (g : AddFields) :
    ((applyActionEdit now a f).status = some "Done" →
      (applyActionEdit now a f).completed_at = some now) ∧
    ((applyActionEdit now a f).status ≠ some "Done" →
      (applyActionEdit now a f).completed_at = none) ∧
    ((applyActionEdit now a f).completed_at ≠ none ↔
      (applyActionEdit now a f).status = some "Done") ∧
    ((addAction regId newId g).completed_at ≠ none ↔
      (addAction regId newId g).status = some "Done") := by
  by_cases hs : (if f.done then "Done" else f.status) = "Done" <;>
    simp [applyActionEdit, addAction, hs]

theorem claim_C3_witness :
    (applyActionEdit 100 sampleAct
      ⟨"Assess retrofit feasibility", "", "In Progress", "J. Kim", 739504, true⟩).completed_at =
      some 100 :=
  (claim_C3_completed_at 100 sampleAct _ 0 0 ⟨"x", "", "", 0⟩).1 (by decide)

/-- Claim C4 (amended): the display ordering of actions is the stable
sort ascending by due date with the `date.max` sentinel for missing
dates; it is a permutation, it is idempotent, ties keep original order
(the sorted list filtered to any one key value equals the input so
filtered), and every action dated strictly before `date.max` comes
before every undated action.  The original claim's stronger reading,
that an undated action sorts after every dated action regardless of
insertion order, fails when a dated action carries the date 9999-12-31
itself (see the counterexample). -/
theorem claim_C4_sort_amended (l : List Action) :
    sortActions (sortActions l) = sortActions l ∧
    (sortActions l).Perm l ∧
    List.Pairwise (fun x y => actionKey x ≤ actionKey y) (sortActions l) ∧
    (∀ n, (sortActions l).filter (fun a => actionKey a == n) =
      l.filter (fun a => actionKey a == n)) ∧
    (∀ (i j : Fin (sortActions l).length) (d : Nat),
      ((sortActions l).get i).due_date = none →
      ((sortActions l).get j).due_date = some d →
      d < dateMax →
      j < i) := by
  refine ⟨sortActions_idem l, sortActions_perm l, sortActions_pairwise l,
    sortActions_filter_key l, ?_⟩
  intro i j d hi hj hd
  have hp := List.pairwise_iff_get.mp (sortActions_pairwise l)
  rcases lt_trichotomy j i with h | h | h
  · exact h
  · exfalso
    rw [h, hi] at hj
    exact Option.noConfusion hj
  · exfalso
    have hle := hp i j h
    have h1 : actionKey ((sortActions l).get i) = dateMax := by
      unfold actionKey
      rw [hi]
      rfl
    have h2 : actionKey ((sortActions l).get j) = d := by
      unfold actionKey
      rw [hj]
      rfl
    rw [h1, h2] at hle
    omega

theorem claim_C4_counterexample :
    ¬ (∀ (l : List Action) (i j : Fin (sortActions l).length),
        ((sortActions l).get i).due_date = none →
        ((sortActions l).get j).due_date ≠ none →
        j < i) := by
  intro h
  have := h [sampleActNoDue, sampleActMaxDue] ⟨0, by decide⟩ ⟨1, by decide⟩
    (by decide) (by decide)
  exact absurd this (by decide)

theorem claim_C4_witness :
    (⟨0, by decide⟩ : Fin (sortActions [sampleActNoDue, sampleAct]).length) <
      ⟨1, by decide⟩ :=
  (claim_C4_sort_amended [sampleActNoDue, sampleAct]).2.2.2.2
    ⟨1, by decide⟩ ⟨0, by decide⟩ 739504 (by decide) (by decide) (by decide)

/-- Claim C5: `setRegulationStatus` replaces the status unconditionally
when the new value is one of the three legal values, and fails with
`InvalidStatus`, leaving the persisted regulation unchanged, for any
other value. -/
theorem claim_C5_set_status (r : Regulation) (s : String) :
    (s ∈ regulationStatuses →
      setRegulationStatus r s = .ok { r with status := some s } ∧
      statusAfter r s = { r with status := some s }) ∧
    (s ∉ regulationStatuses →
      setRegulationStatus r s = .error .invalidStatus ∧
      statusAfter r s = r) := by
  constructor
  · intro hs
    constructor <;> simp [setRegulationStatus, statusAfter, hs]
  · intro hs
    constructor <;> simp [setRegulationStatus, statusAfter, hs]

theorem claim_C5_witness :
    setRegulationStatus sampleReg "Closed" = .ok { sampleReg with status := some "Closed" } ∧
    setRegulationStatus sampleReg "Rejected" = .error .invalidStatus ∧
    statusAfter sampleReg "Rejected" = sampleReg :=
  ⟨((claim_C5_set_status sampleReg "Closed").1 (by decide)).1,
   ((claim_C5_set_status sampleReg "Rejected").2 (by decide)).1,
   ((claim_C5_set_status sampleReg "Rejected").2 (by decide)).2⟩

theorem claim_C6_counterexample :
    (applyActionEdit 0 sampleAct ⟨"", "", "Planned", "", 739500, false⟩).title = "" ∧
    (addAction 2 9 ⟨"", "", "", 739500⟩).title = "" ∧
    applyActionEdit 0 sampleAct ⟨"", "", "Planned", "", 739500, false⟩ =
      ⟨3, 2, "", some "", some "Planned", some "", some 739500, none⟩ :=
  ⟨rfl, rfl, rfl⟩

/-- Claim C6 (amended): neither `addAction` nor the action edit validates
the title; an empty supplied title is accepted and persisted verbatim,
matching the spec's own §9 note that the source never enforces
non-emptiness. -/
theorem claim_C6_empty_title_accepted (now : Nat) (a : Action) (f : EditFields)
    (regId newId : Nat) (g : AddFields) :
    (applyActionEdit now a f).title = f.title ∧
    (addAction regId newId g).title = g.title :=
  ⟨rfl, rfl⟩

/-- Claim C7: an `addAction` command, which never supplies a status,
creates an Action with status "Planned", empty `completed_at`, the given
title/description/assignee/due date, owned by the target regulation. -/
theorem claim_C7_add_defaults (regId newId : Nat) (g : AddFields) :
    (addAction regId newId g).status = some "Planned" ∧
    (addAction regId newId g).completed_at = none ∧
    (addAction regId newId g).title = g.title ∧
    (addAction regId newId g).description = some g.description ∧
    (addAction regId newId g).assignee = some g.assignee ∧
    (addAction regId newId g).due_date = some g.due_date ∧
    (addAction regId newId g).regulation_id = regId :=
  ⟨rfl, rfl, rfl, rfl, rfl, rfl, rfl⟩

/-- Claim C8: in every action save, the done checkbox overrides the
status select box: set, the resulting status is "Done" regardless of the
selected value; unset, the resulting status is exactly the selected
value. -/
theorem claim_C8_done_overrides (now : Nat) (a : Action) (f : EditFields) :
    (f.done = true → (applyActionEdit now a f).status = some "Done") ∧
    (f.done = false → (applyActionEdit now a f).status = some f.status) := by
  constructor <;> intro h <;> simp [applyActionEdit, h]

theorem claim_C8_witness :
    (applyActionEdit 5 sampleAct ⟨"T", "", "Blocked", "", 1, true⟩).status = some "Done" ∧
    (applyActionEdit 5 sampleAct ⟨"T", "", "Blocked", "", 1, false⟩).status = some "Blocked" :=
  ⟨(claim_C8_done_overrides 5 sampleAct _).1 rfl,
   (claim_C8_done_overrides 5 sampleAct _).2 rfl⟩

/-- Claim C9: every action produced or modified through the exposed
commands carries a non-null due date: the edit path always writes the
date collected by the date widget, whose default substitutes the current
date when the action had none, and the add path always supplies a date. -/
theorem claim_C9_due_date_total (now today : Nat) (a : Action) (f : EditFields)
    (regId newId : Nat) (g : AddFields) :
    (applyActionEdit now a f).due_date = some f.due_date ∧
    (applyActionEdit now a f).due_date ≠ none ∧
    (addAction regId newId g).due_date = some g.due_date ∧
    (addAction regId newId g).due_date ≠ none ∧
    (a.due_date = none → editDueDefault a today = today) := by
  refine ⟨rfl, by simp [applyActionEdit], rfl, by simp [addAction], ?_⟩
  intro h
  simp [editDueDefault, h]

theorem claim_C9_witness :
    editDueDefault sampleActNoDue 739600 = 739600 :=
  (claim_C9_due_date_total 0 739600 sampleActNoDue
    ⟨"T", "", "Planned", "", 1, false⟩ 0 0 ⟨"T", "", "", 1⟩).2.2.2.2 rfl

/-- Claim C10: the selection label of a regulation is the string
`"#<id> — <first 80 characters of the title>"`, and building it does not
alter the underlying title (the truncated prefix together with the
untouched remainder still makes up the original title). -/
theorem claim_C10_selection_label (r : Regulation) (regs : List Regulation) :
    (selectionLabel r).data =
      '#' :: (Nat.repr r.id).data ++ ' ' :: '—' :: ' ' :: r.title.data.take 80 ∧
    r.title.data.take 80 ++ r.title.data.drop 80 = r.title.data ∧
    selectionLabels regs = regs.map selectionLabel := by
  refine ⟨?_, List.take_append_drop 80 r.title.data, rfl⟩
  simp [selectionLabel, String.data_append]

end RegTracker
